import Mathlib

/-!
# Verification of the mymentora-edit video-generation service

Shallow embedding of the job execution pipeline of the repository
(`server.js`, `lib/ffmpegHelpers.js`, `lib/download.js`), together with
theorems settling the spec claims about it.

Conventions:
* JavaScript values occurring in JSON payloads are modelled by `JVal`;
  machine floats are modelled by `JsNum` (a finite rational, NaN, or a
  signed infinity — JSON payloads only ever contain finite numbers).
* Stateful/asynchronous code (the `pLimit` concurrency gate) is modelled
  as an explicit small-step transition system on a state record.
* External effects (network fetch attempts, ffmpeg process events,
  storage upload) are passed in as explicit outcome parameters.
-/

/-- A JavaScript number: a finite rational, NaN, or a signed infinity. -/
inductive JsNum where
  | finite (q : ℚ)
  | nan
  | posInf
  | negInf
deriving DecidableEq, Repr

namespace JsNum

/-- `Number.isFinite`. -/
def isFinite : JsNum → Bool
  | finite _ => true
  | _ => false

end JsNum

/-- A JavaScript value of the shapes that occur in (parsed-JSON) request
bodies, plus `undefined` for absent properties. -/
inductive JVal where
  | undefined
  | null
  | bool (b : Bool)
  | num (n : JsNum)
  | str (s : String)
  | arr (elems : List JVal)
  | obj (fields : List (String × JVal))

/-- Property lookup on an object's field list; absent fields give `undefined`. -/
def lookupField : List (String × JVal) → String → JVal
  | [], _ => .undefined
  | (k, v) :: rest, name => if k = name then v else lookupField rest name

/-- `v.name` property access.  JSON arrays carry no named properties, so any
non-object receiver yields `undefined`. -/
def JVal.getField : JVal → String → JVal
  | .obj fields, name => lookupField fields name
  | _, _ => .undefined

/-- JavaScript truthiness. -/
def JVal.truthy : JVal → Bool
  | .undefined => false
  | .null => false
  | .bool b => b
  | .num (.finite q) => q ≠ 0
  | .num .nan => false
  | .num _ => true
  | .str s => s ≠ ""
  | .arr _ => true
  | .obj _ => true

/-- JavaScript loose equality against `null` (`v == null`): true exactly for
`null` and `undefined`. -/
def JVal.looseEqNull : JVal → Bool
  | .undefined => true
  | .null => true
  | _ => false

/-- `a || b`. -/
def jsOr (a b : JVal) : JVal := if a.truthy then a else b

/-- `a ?? b`. -/
def jsNullish (a b : JVal) : JVal := if a.looseEqNull then b else a

/-- `a && b`. -/
def jsAnd (a b : JVal) : JVal := if a.truthy then b else a

/-- `String.prototype.trim`: strip leading and trailing whitespace
(executable over the character list; the JS whitespace set is approximated
by `Char.isWhitespace`, which covers the characters occurring in payloads). -/
def jsTrim (s : String) : String :=
  ⟨((s.data.dropWhile Char.isWhitespace).reverse.dropWhile Char.isWhitespace).reverse⟩

/-- Digit-string value; `none` on the empty list or a non-digit. -/
def digitsVal (cs : List Char) : Option ℕ :=
  if cs.isEmpty then none
  else cs.foldl (fun acc c =>
    acc.bind fun n => if c.isDigit then some (n * 10 + (c.toNat - 48)) else none)
    (some 0)

/-- Unsigned JS decimal literal: `digits`, `digits.digits`, `.digits`,
`digits.` (exponent forms are not modelled; they do not occur in payloads). -/
def parseUnsigned (cs : List Char) : Option ℚ :=
  let intPart := cs.takeWhile (·.isDigit)
  let rest := cs.dropWhile (·.isDigit)
  match rest with
  | [] => (digitsVal intPart).map (fun n => (n : ℚ))
  | '.' :: frac =>
      if frac.all (·.isDigit) && (!intPart.isEmpty || !frac.isEmpty) then
        some (((digitsVal intPart).getD 0 : ℚ)
          + ((digitsVal frac).getD 0 : ℚ) / ((10 : ℚ) ^ frac.length))
      else none
  | _ => none

/-- Signed JS decimal literal. -/
def parseSigned (cs : List Char) : Option ℚ :=
  match cs with
  | '-' :: rest => (parseUnsigned rest).map (fun q => -q)
  | '+' :: rest => parseUnsigned rest
  | _ => parseUnsigned cs

/-- `Number(v)` coercion for the value shapes that occur in payloads.
Arrays and objects coerce through their string form in JS; this model maps
them to NaN (a non-primitive `duration` is a degenerate payload either way,
and the pipeline's validator rejects NaN). -/
def JVal.toNumber : JVal → JsNum
  | .undefined => .nan
  | .null => .finite 0
  | .bool b => .finite (if b then 1 else 0)
  | .num n => n
  | .str s =>
      let t := jsTrim s
      if t = "" then .finite 0
      else if t = "Infinity" then .posInf
      else if t = "-Infinity" then .negInf
      else
        match parseSigned t.data with
        | some q => .finite q
        | none => .nan
  | .arr _ => .nan
  | .obj _ => .nan

/-- The canonical segment shape produced by the normalizer
(`server.js`, the `rawSegments.map` at lines 142–150). -/
structure Segment where
  id : JVal
  imageUrl : JVal
  duration : JVal
  image_prompt : JVal
  subtitleText : JVal
  word_duration : JVal

/-- `server.js` lines 142–150: normalize one raw segment to expected keys.
Each field mirrors the source expression exactly (`??` chains for `id` and
`duration`, `||` chains for the others, each guarded by `s && …`). -/
def normalizeSegment (s : JVal) : Segment :=
  { id := jsAnd s (jsNullish (jsNullish (s.getField "id") (s.getField "ID")) (s.getField "index"))
  , imageUrl := jsAnd s (jsOr (jsOr (jsOr (s.getField "imageUrl") (s.getField "image_Url"))
      (s.getField "image_url")) (s.getField "image"))
  , duration := jsAnd s (jsNullish (jsNullish (s.getField "duration") (s.getField "length"))
      (s.getField "time"))
  , image_prompt := jsAnd s (jsOr (s.getField "image_prompt") (s.getField "imagePrompt"))
  , subtitleText := jsAnd s (jsOr (jsOr (s.getField "subtitleText") (s.getField "subtitle_text"))
      (s.getField "subtitle"))
  , word_duration := jsAnd s (jsOr (jsOr (s.getField "word_duration") (s.getField "wordDuration"))
      (s.getField "words"))
  }

/-- First truthy value of a list of candidates; a `||` chain evaluates to its
last operand when every operand is falsy. -/
def firstTruthy : List JVal → JVal
  | [] => .undefined
  | [v] => v
  | v :: rest => if v.truthy then v else firstTruthy rest

/-- First non-nullish value of a list of candidates; a `??` chain evaluates to
its last operand when every operand is nullish. -/
def firstNonNullish : List JVal → JVal
  | [] => .undefined
  | [v] => v
  | v :: rest => if v.looseEqNull then firstNonNullish rest else v

/-!
## Asset fetcher (`lib/download.js`, `downloadFileToPath`)

One network attempt is summarized by an `AttemptOutcome`: either the request
produced a response with some HTTP status (and, on a 2xx, the body stream
either piped to disk successfully or erred), or it failed at the transport
layer (such errors carry an optional `err.response.status`).
-/

/-- Outcome of one `axiosInstance.get` attempt plus the stream pipeline. -/
inductive AttemptOutcome where
  | response (status : ℕ) (streamOk : Bool)
  | transport (status : Option ℕ)
deriving DecidableEq, Repr

/-- Result of the whole fetch: the attempt count on which it settled and the
backoff delays slept in between; a failure carries the URL and the last-known
status, exactly the data placed on the thrown error (`e.url`, `e.status`). -/
inductive FetchResult where
  | success (attempts : ℕ) (delays : List ℕ)
  | failure (attempts : ℕ) (url : String) (status : Option ℕ) (delays : List ℕ)
deriving DecidableEq, Repr

/-- `[400, 401, 403, 404].includes(status)` — the non-retryable statuses. -/
def nonRetryable (status : ℕ) : Bool :=
  status == 400 || status == 401 || status == 403 || status == 404

/-- How one attempt's outcome is classified by the `try` block:
`none` = returned successfully; `some st` = threw, with normalized status
`st` (`err.response.status || err.status`; a non-2xx response throws an error
carrying its status; a stream-pipeline error carries no status). -/
def attemptFailure (o : AttemptOutcome) : Option (Option ℕ) :=
  match o with
  | .response st streamOk =>
      if 200 ≤ st ∧ st < 300 then (if streamOk then none else some none)
      else some (some st)
  | .transport st => some st

/-- Default `retries` option of `downloadFileToPath`. -/
def DEFAULT_RETRIES : ℕ := 2

/-- Default `retryDelay` option of `downloadFileToPath` (milliseconds). -/
def DEFAULT_RETRY_DELAY : ℕ := 500

/-- The `while (true)` retry loop of `downloadFileToPath`, entered at a given
(1-based) `attempt` number with the backoff `delays` slept so far.
`out k` is the outcome of the k-th attempt.  Mirrors the source order: a
successful attempt returns; a thrown error with a non-retryable status fails
immediately; then `attempt > retries` fails; otherwise sleep
`retryDelay * attempt` and loop. -/
def fetchGo (url : String) (out : ℕ → AttemptOutcome) (retries retryDelay attempt : ℕ)
    (delays : List ℕ) : FetchResult :=
  match attemptFailure (out attempt) with
  | none => .success attempt delays
  | some st =>
    if (match st with | some code => nonRetryable code | none => false) then
      .failure attempt url st delays
    else if _h : attempt > retries then
      .failure attempt url st delays
    else
      fetchGo url out retries retryDelay (attempt + 1) (delays ++ [retryDelay * attempt])
termination_by retries + 1 - attempt
decreasing_by omega

/-- `downloadFileToPath(url, destPath, {retries, retryDelay})`, with the
per-attempt network outcomes supplied by `out`. -/
def downloadFileToPath (url : String) (out : ℕ → AttemptOutcome)
    (retries retryDelay : ℕ) : FetchResult :=
  fetchGo url out retries retryDelay 1 []

/-- Attempt outcomes of §8's fetch-retry scenario: HTTP 500 on the first two
attempts, HTTP 200 (with a clean body stream) from the third on. -/
def out500twice : ℕ → AttemptOutcome := fun k =>
  if k ≤ 2 then .response 500 true else .response 200 true

/-!
## Composition engine (`lib/ffmpegHelpers.js`)

### Fast path: `createVideoFromSegments`

The geometry computation (lines 131–150) and the filter-graph construction
(lines 148–155) are pure and are embedded directly.  Probed image dimensions
are a pair `(w, h)` of naturals, `(0, 0)` when probing failed.
-/

/-- Scaled dimensions of one probed image in the fast path (source lines
140–144): `ratioW = width/iw`, `ratioH = height/ih`,
`factor = Math.min(ratioW, ratioH, 1)`,
`scaled = Math.max(1, Math.floor(native * factor))` per axis. -/
def scaledDims (width height iw ih : ℕ) : ℕ × ℕ :=
  let ratioW : ℚ := (width : ℚ) / (iw : ℚ)
  let ratioH : ℚ := (height : ℚ) / (ih : ℚ)
  let factor : ℚ := min (min ratioW ratioH) 1
  (max 1 (Int.toNat ⌊(iw : ℚ) * factor⌋), max 1 (Int.toNat ⌊(ih : ℚ) * factor⌋))

/-- The per-input video filter string of the fast path (source lines
136–146): the probe-failure branch uses ffmpeg's own fit-and-pad, the normal
branch scales to the explicitly computed dimensions; both letterbox-pad to
exactly `width`×`height`, centered, and force a 1:1 sample aspect ratio. -/
def videoFilterString (width height iw ih : ℕ) : String :=
  if iw = 0 ∨ ih = 0 then
    "scale=" ++ toString width ++ ":" ++ toString height ++
      ":force_original_aspect_ratio=decrease,pad=" ++ toString width ++ ":" ++
      toString height ++ ":(ow-iw)/2:(oh-ih)/2,setsar=1"
  else
    "scale=" ++ toString (scaledDims width height iw ih).1 ++ ":" ++
      toString (scaledDims width height iw ih).2 ++ ",pad=" ++ toString width ++
      ":" ++ toString height ++ ":(ow-iw)/2:(oh-ih)/2,setsar=1"

/-- The labelled output stream of segment `i`'s filter chain: `[sv_i]`. -/
def svLabel (i : ℕ) : String := "[sv" ++ toString i ++ "]"

/-- The labelled video stream of ffmpeg input `i`: `[i:v]`. -/
def inLabel (i : ℕ) : String := "[" ++ toString i ++ ":v]"

/-- The `segments.forEach` loop of lines 131–150: pushes, for i = 0..n-1 in
order, one filter line `[i:v]<filter>[sv_i]` onto `filters` and the label
`[sv_i]` onto `concatInputs` (`dims[i] || {w: 0, h: 0}` is `getD i (0, 0)`). -/
def buildFilters (width height : ℕ) (dims : List (ℕ × ℕ)) : List String × List String :=
  (List.range dims.length).foldl
    (fun acc i =>
      let d := dims.getD i (0, 0)
      (acc.1 ++ [inLabel i ++ videoFilterString width height d.1 d.2 ++ svLabel i],
       acc.2 ++ [svLabel i]))
    ([], [])

/-- The complete `filter_complex` string (lines 153–155): the per-segment
filter lines followed by the concat line, which consumes the `[sv_i]` labels
joined in push order and declares `n=<count>:v=1:a=0`. -/
def filterComplex (width height : ℕ) (dims : List (ℕ × ℕ)) : String :=
  let fs := buildFilters width height dims
  String.intercalate ";"
    (fs.1 ++ [String.join fs.2 ++ "concat=n=" ++ toString dims.length ++ ":v=1:a=0[v]"])

/-!
### Fallback path: `createSegmentVideo` and `concatVideos`
-/

/-- The per-segment render timeout installed in `createSegmentVideo`'s
`start` handler (milliseconds). -/
def FFMPEG_TIMEOUT_MS : ℕ := 60000

/-- What the underlying ffmpeg process eventually does, with the wall-clock
time (ms) at which its terminating event would fire. -/
inductive RenderEvent where
  | ended (t : ℕ)
  | errored (t : ℕ)
deriving DecidableEq, Repr

/-- How one `createSegmentVideo` promise settles: resolution with the output
path, or rejection, recording whether the timeout fired and whether the
process was force-killed (`SIGKILL`). -/
inductive SegRenderResult where
  | resolved (outPath : String)
  | rejected (timedOut : Bool) (killed : Bool)
deriving DecidableEq, Repr

/-- `createSegmentVideo` (lines 7–66): the 60-second timer armed on `start`
races the process's own terminating event.  An `end` before the deadline
clears the timer and resolves with the output path; an `error` before the
deadline rejects; once the deadline is reached the timer fires first, the
process is killed with SIGKILL, and the promise rejects. -/
def createSegmentVideo (outPath : String) (ev : RenderEvent) : SegRenderResult :=
  match ev with
  | .ended t => if t < FFMPEG_TIMEOUT_MS then .resolved outPath else .rejected true true
  | .errored t => if t < FFMPEG_TIMEOUT_MS then .rejected false false else .rejected true true

/-- Output path of the fallback clip for segment `i`
(`server.js` line 242: `seg_${i}.mp4` under the session directory). -/
def fallbackSegPath (sessionDir : String) (i : ℕ) : String :=
  sessionDir ++ "/seg_" ++ toString i ++ ".mp4"

/-- The fallback `for` loop of `server.js` lines 239–251, starting at segment
index `i` with the per-segment process events `evs`: each clip is awaited in
turn and its path pushed onto `segVideoPaths`; the first rejection makes the
`await` throw, aborting the loop and the surrounding `try`. -/
def fallbackLoop (sessionDir : String) : List RenderEvent → ℕ → Except SegRenderResult (List String)
  | [], _ => .ok []
  | ev :: rest, i =>
    match createSegmentVideo (fallbackSegPath sessionDir i) ev with
    | .resolved p =>
      match fallbackLoop sessionDir rest (i + 1) with
      | .ok ps => .ok (p :: ps)
      | .error e => .error e
    | .rejected timedOut killed => .error (.rejected timedOut killed)

/-- `concatVideos`'s escaping of a path for the ffmpeg concat list
(line 72: each `'` becomes `'\''`). -/
def escapeForConcat (p : String) : String :=
  p.replace "\x27" "\x27\\\x27\x27"

/-- The concat list file content written by `concatVideos` (lines 70–74):
one `file '<path>'` line per input video, in the order of `videoPaths`. -/
def concatFileList (videoPaths : List String) : String :=
  String.intercalate "\n" (videoPaths.map (fun p => "file \x27" ++ escapeForConcat p ++ "\x27"))

/-!
## Concurrency limiter (`server.js` lines 78–102, `pLimit`)

Modelled as a small-step transition system.  Tasks are identified by the
index under which they were submitted; `res id` is the value with which task
`id`'s closure eventually settles (an `Except` to cover rejection).  A state
records the submission order, the waiting queue, the admission history, the
set of admitted-but-unfinished tasks, and the settled results.  The promise
returned to the submitter is resolved/rejected with exactly the settling
value of its own `fn` — in the source this correlation is carried by the
`{fn, resolve, reject}` record travelling through the queue as one object,
here by the task id.
-/

namespace PLimit

/-- `MAX_CONCURRENCY = Math.max(1, os.cpus().length - 1)` (line 101). -/
def MAX_CONCURRENCY (cpus : ℕ) : ℕ := max 1 (cpus - 1)

/-- State of one `pLimit(concurrency)` gate. -/
structure LimitState (α : Type) where
  submitted : List ℕ
  queue : List ℕ
  admitted : List ℕ
  active : List ℕ
  settled : List (ℕ × α)

/-- The `next()` closure: if the queue is nonempty and fewer than `N` tasks
are active, shift the head of the queue and start it (`active++`).  Called
once per submission and once per task settlement, so it admits at most one
task per call, exactly as in the source. -/
def tryNext (N : ℕ) (s : LimitState α) : LimitState α :=
  match s.queue with
  | [] => s
  | id :: rest =>
    if s.active.length < N then
      { s with queue := rest, admitted := s.admitted ++ [id], active := s.active ++ [id] }
    else s

/-- Submitting a task: `queue.push({fn, resolve, reject}); next()`. -/
def submitStep (N : ℕ) (s : LimitState α) (id : ℕ) : LimitState α :=
  tryNext N { s with submitted := s.submitted ++ [id], queue := s.queue ++ [id] }

/-- An active task's `fn()` promise settling: `active--`, the submitter's
promise is settled with the task's own value `res id`, then `next()`.  The
fulfilled and rejected callbacks of the source perform the same control
steps, so one transition covers both. -/
def finishStep (N : ℕ) (res : ℕ → α) (s : LimitState α) (id : ℕ) : LimitState α :=
  tryNext N { s with active := s.active.erase id, settled := s.settled ++ [(id, res id)] }

/-- The transitions of the gate: a fresh task is submitted, or an active task
settles. -/
inductive Step (N : ℕ) (res : ℕ → α) : LimitState α → LimitState α → Prop
  | submit (s : LimitState α) (id : ℕ) (fresh : id ∉ s.submitted) :
      Step N res s (submitStep N s id)
  | finish (s : LimitState α) (id : ℕ) (mem : id ∈ s.active) :
      Step N res s (finishStep N res s id)

/-- The state of a freshly created gate (`queue = []`, `active = 0`). -/
def initState : LimitState α := ⟨[], [], [], [], []⟩

/-- States reachable by some interleaving of submissions and settlements. -/
def Reachable (N : ℕ) (res : ℕ → α) (s : LimitState α) : Prop :=
  Relation.ReflTransGen (Step N res) initState s

/-- Invariant of the gate: the concurrency bound, FIFO admission (the
admission history followed by the current queue is exactly the submission
order), result correlation, and work conservation (a nonempty queue means
the pool is full). -/
def Inv (N : ℕ) (res : ℕ → α) (s : LimitState α) : Prop :=
  s.active.length ≤ N
  ∧ s.admitted ++ s.queue = s.submitted
  ∧ (∀ p ∈ s.settled, p.2 = res p.1)
  ∧ (s.queue ≠ [] → s.active.length = N)

lemma inv_initState (N : ℕ) (res : ℕ → α) : Inv N res (initState : LimitState α) := by
  refine ⟨by simp [initState], by simp [initState], by simp [initState], by simp [initState]⟩

lemma inv_submitStep (N : ℕ) (res : ℕ → α) (s : LimitState α) (id : ℕ)
    (h : Inv N res s) : Inv N res (submitStep N s id) := by
  obtain ⟨hlen, hfifo, hcorr, hfull⟩ := h
  rcases hq : s.queue with _ | ⟨q, qs⟩
  · rw [hq] at hfifo
    simp only [List.append_nil] at hfifo
    by_cases hlt : s.active.length < N
    · refine ⟨?_, ?_, ?_, ?_⟩
      · simp [submitStep, tryNext, hq, hlt]; omega
      · simp [submitStep, tryNext, hq, hlt, hfifo]
      · simp only [submitStep, tryNext, hq]
        simp only [List.nil_append, if_pos hlt]
        exact hcorr
      · simp [submitStep, tryNext, hq, hlt]
    · refine ⟨?_, ?_, ?_, ?_⟩
      · simpa [submitStep, tryNext, hq, hlt] using hlen
      · simp [submitStep, tryNext, hq, hlt, hfifo]
      · simp only [submitStep, tryNext, hq]
        simp only [List.nil_append, if_neg hlt]
        exact hcorr
      · simp [submitStep, tryNext, hq, hlt]
        omega
  · have hfullN : s.active.length = N := hfull (by simp [hq])
    have hnlt : ¬ s.active.length < N := by omega
    refine ⟨?_, ?_, ?_, ?_⟩
    · simpa [submitStep, tryNext, hq, hnlt] using hlen
    · simp only [submitStep, tryNext, hq]
      simp only [List.cons_append, if_neg hnlt]
      rw [← hfifo]
      simp [hq]
    · simp only [submitStep, tryNext, hq]
      simp only [List.cons_append, if_neg hnlt]
      exact hcorr
    · simp [submitStep, tryNext, hq, hnlt, hfullN]

lemma inv_finishStep (N : ℕ) (res : ℕ → α) (s : LimitState α) (id : ℕ)
    (hmem : id ∈ s.active) (h : Inv N res s) : Inv N res (finishStep N res s id) := by
  obtain ⟨hlen, hfifo, hcorr, hfull⟩ := h
  have herase : (s.active.erase id).length = s.active.length - 1 :=
    List.length_erase_of_mem hmem
  have hpos : 1 ≤ s.active.length := List.length_pos.mpr (List.ne_nil_of_mem hmem)
  have hsettled : ∀ p ∈ s.settled ++ [(id, res id)], p.2 = res p.1 := by
    intro p hp
    rcases List.mem_append.mp hp with hp | hp
    · exact hcorr p hp
    · simp only [List.mem_singleton] at hp
      subst hp
      rfl
  rcases hq : s.queue with _ | ⟨q, qs⟩
  · refine ⟨?_, ?_, ?_, ?_⟩
    · simp [finishStep, tryNext, hq]; omega
    · rw [hq] at hfifo
      simpa [finishStep, tryNext, hq] using hfifo
    · simp only [finishStep, tryNext, hq]
      exact hsettled
    · simp [finishStep, tryNext, hq]
  · have hfullN : s.active.length = N := hfull (by simp [hq])
    have hlt : (s.active.erase id).length < N := by omega
    refine ⟨?_, ?_, ?_, ?_⟩
    · simp [finishStep, tryNext, hq, hlt]; omega
    · simp only [finishStep, tryNext, hq, if_pos hlt]
      rw [← hfifo]
      simp [hq]
    · simp only [finishStep, tryNext, hq, if_pos hlt]
      exact hsettled
    · simp [finishStep, tryNext, hq, hlt]
      omega

lemma inv_step (N : ℕ) (res : ℕ → α) (s t : LimitState α)
    (hst : Step N res s t) (h : Inv N res s) : Inv N res t := by
  cases hst with
  | submit id fresh => exact inv_submitStep N res s id h
  | finish id mem => exact inv_finishStep N res s id mem h

/-- Every reachable state of the gate satisfies the invariant. -/
lemma reachable_inv (N : ℕ) (res : ℕ → α) (s : LimitState α)
    (h : Reachable N res s) : Inv N res s := by
  induction h with
  | refl => exact inv_initState N res
  | tail _ hstep ih => exact inv_step N res _ _ hstep ih

/-- Settling a task — by fulfilment or by rejection alike — leaves the gate's
control state (submission order, queue, admission history, active set)
independent of the settling values: only the recorded results differ. -/
lemma finishStep_control_indep (N : ℕ) (res res' : ℕ → α) (s : LimitState α) (id : ℕ) :
    (finishStep N res s id).submitted = (finishStep N res' s id).submitted
    ∧ (finishStep N res s id).queue = (finishStep N res' s id).queue
    ∧ (finishStep N res s id).admitted = (finishStep N res' s id).admitted
    ∧ (finishStep N res s id).active = (finishStep N res' s id).active := by
  rcases hq : s.queue with _ | ⟨q, qs⟩ <;>
    by_cases hlt : (s.active.erase id).length < N <;>
      simp [finishStep, tryNext, hq, hlt]

/-- In a reachable state with a nonempty queue, any settlement — success or
failure — admits exactly the head of the queue. -/
lemma finishStep_admits_head (N : ℕ) (res : ℕ → α) (s : LimitState α) (id hd : ℕ)
    (tl : List ℕ) (hreach : Reachable N res s) (hmem : id ∈ s.active)
    (hq : s.queue = hd :: tl) :
    (finishStep N res s id).admitted = s.admitted ++ [hd]
    ∧ (finishStep N res s id).queue = tl := by
  obtain ⟨hlen, hfifo, hcorr, hfull⟩ := reachable_inv N res s hreach
  have hfullN : s.active.length = N := hfull (by simp [hq])
  have herase : (s.active.erase id).length = s.active.length - 1 :=
    List.length_erase_of_mem hmem
  have hpos : 1 ≤ s.active.length := List.length_pos.mpr (List.ne_nil_of_mem hmem)
  have hlt : (s.active.erase id).length < N := by omega
  constructor <;> simp [finishStep, tryNext, hq, hlt]

end PLimit

/-!
## Job orchestrator (`server.js`, `POST /generate-video`)

The handler is embedded as a function `generateVideo` from the request body
and an environment of external outcomes to an observable `JobTrace`.  The
subtitle collaborator (`createSubtitleFile`, `getSubtitleStylePresets`) is
not present under `src/` (its import in `server.js` is commented out while
the call sites remain); it is modelled from the spec, §4.7.
-/

/-- The download-task closure's resolution value for segment `i`
(`server.js` lines 175–192): the image is written to `img_<i><ext>` under the
session directory — indexed by the segment's original position — and the
task resolves with that path plus the segment's own duration/subtitle data.
`extOf` stands for `safeExt(seg.imageUrl, ".png")`, whose internals (URL
parsing) are orthogonal to the claims. -/
structure Downloaded where
  imagePath : String
  duration : JVal
  subtitleText : JVal
  word_duration : JVal

def downloadTaskResult (sessionDir : String) (extOf : JVal → String)
    (seg : Segment) (i : ℕ) : Downloaded :=
  { imagePath := sessionDir ++ "/img_" ++ toString i ++ extOf seg.imageUrl
  , duration := seg.duration
  , subtitleText := seg.subtitleText
  , word_duration := seg.word_duration }

/-- A segment with every field absent, used as the (never hit) out-of-range
default when indexing the segment list. -/
def defaultSegment : Segment :=
  ⟨.undefined, .undefined, .undefined, .undefined, .undefined, .undefined⟩

/-- Modelled from the spec: result record of the external subtitle
collaborator's `generate(segment, workDir, index, fallbackDuration, style)`
(§4.7) — the repository's `lib/subtitleHelpers.js` is not under `src/`. -/
structure SubtitleResult where
  srtPath : JVal
  calculatedDuration : JVal

/-- External outcomes a job run depends on. -/
structure JobEnv where
  /-- whether `downloadFileToPath` succeeds for segment index `i`. -/
  dl : ℕ → Bool
  /-- Modelled from the spec: the external subtitle collaborator (§4.7),
  invoked for segments carrying subtitle data. -/
  subGen : Segment → ℕ → SubtitleResult
  /-- Modelled from the spec: the collaborator's named style-preset lookup. -/
  presets : JVal → JVal
  /-- whether the fast-path `createVideoFromSegments` ffmpeg run succeeds. -/
  fastOk : Bool
  /-- fallback path: the ffmpeg process event for segment `i`'s clip. -/
  fbEvent : ℕ → RenderEvent
  /-- whether the fallback `concatVideos` run succeeds. -/
  concatOk : Bool
  /-- whether `uploadVideoToSupabase` succeeds. -/
  uploadOk : Bool
  /-- the public URL the publisher returns. -/
  uploadUrl : String

/-- HTTP response of the handler, as far as the claims observe it.
`unhandled` stands for an exception thrown *outside* the handler's `try`
block (before line 162): it escapes the async handler, so this code sends no
structured 4xx/5xx response at all. -/
inductive Response where
  | ok (jobId url : String)
  | badRequest (msg : String)
  | serverError (msg : String)
  | unhandled (msg : String)
deriving DecidableEq, Repr

/-- Observable effects of one request. -/
structure JobTrace where
  response : Response
  workspaceCreated : Bool
  fastInvoked : Bool
  fallbackInvoked : Bool
  uploaded : Bool
deriving DecidableEq, Repr

/-- A trace that ends before the session workspace is allocated. -/
def JobTrace.noWorkspace (r : Response) : JobTrace := ⟨r, false, false, false, false⟩

/-- A trace that fails after workspace allocation but before any
composition work. -/
def JobTrace.preCompose (r : Response) : JobTrace := ⟨r, true, false, false, false⟩

/-- `server.js` lines 112–114: a request body that is an array holding
exactly one truthy value of JS type `"object"` is unwrapped to that value. -/
def unwrapBody (body : JVal) : JVal :=
  match body with
  | .arr [x] => if x.truthy && jsTypeofObject x then x else body
  | _ => body
where
  /-- `typeof v === 'object'` for JSON-representable values. -/
  jsTypeofObject : JVal → Bool
    | .null => true
    | .arr _ => true
    | .obj _ => true
    | _ => false

/-- Line 119: `!jobId || typeof jobId !== 'string' || jobId.trim() === ''`. -/
def jobIdInvalid (jobId : JVal) : Bool :=
  !jobId.truthy
  || (match jobId with | .str _ => false | _ => true)
  || (match jobId with | .str s => jsTrim s = "" | _ => false)

def isJsArray : JVal → Bool
  | .arr _ => true
  | _ => false

def jsArrayElems : JVal → List JVal
  | .arr xs => xs
  | _ => []

/-- Line 137: `!Array.isArray(rawSegments) || rawSegments.length === 0`. -/
def segmentsInvalid (rawSegments : JVal) : Bool :=
  !isJsArray rawSegments || (jsArrayElems rawSegments).length == 0

/-- `typeof v === 'string'`-shaped test: only strings carry `toLowerCase`. -/
def jsIsString : JVal → Bool
  | .str _ => true
  | _ => false

/-- `server.js` line 130: `subtitlePreset.toLowerCase()` is evaluated for
every truthy preset and throws `TypeError: subtitlePreset.toLowerCase is
not a function` when the preset is truthy but not a string. -/
def presetCrashes (preset : JVal) : Bool := preset.truthy && !jsIsString preset

/-- `Array.prototype.findIndex`, as an `Option`al index of the first match. -/
def findIndex (p : α → Bool) : List α → Option ℕ
  | [] => none
  | a :: as => if p a then some 0 else (findIndex p as).map (· + 1)

/-- Line 220's predicate on one downloaded segment:
`s.duration == null || !Number.isFinite(Number(s.duration))`. -/
def invalidDuration (seg : Segment) : Bool :=
  seg.duration.looseEqNull || !(seg.duration.toNumber.isFinite)

/-- Line 222's error message, naming the first offending index. -/
def validationMessage (k : ℕ) : String :=
  "Payload validation failed: each segment must include a numeric \x27duration\x27 in seconds (missing or invalid at index " ++ toString k ++ ")"

/-- Lines 201–206: segments carrying `subtitleText` or `word_duration` go to
the collaborator; the rest get a null result. -/
def subtitleOutcome (env : JobEnv) (seg : Segment) (i : ℕ) : SubtitleResult :=
  if seg.subtitleText.truthy || seg.word_duration.truthy then env.subGen seg i
  else { srtPath := .null, calculatedDuration := .null }

/-- Lines 212–217: a truthy `calculatedDuration` from word timing overrides
the segment's duration, in place, before validation. -/
def updatedSegments (env : JobEnv) (segs : List Segment) : List Segment :=
  segs.mapIdx (fun i seg =>
    if (subtitleOutcome env seg i).calculatedDuration.truthy then
      { seg with duration := (subtitleOutcome env seg i).calculatedDuration }
    else seg)

/-- Lines 256–266: upload the final file and answer `{jobId, url}`; an upload
failure propagates to the catch-all 500. -/
def publishStep (env : JobEnv) (jobId : String) (fellBack : Bool) : JobTrace :=
  if env.uploadOk then ⟨.ok jobId env.uploadUrl, true, true, fellBack, true⟩
  else ⟨.serverError "upload failed", true, true, fellBack, false⟩

/-- The `try` block of lines 162–286, entered with the session workspace
already allocated: bounded-concurrency downloads (a failed download rejects
`Promise.all` and aborts), subtitle processing, the post-update duration
validation, then fast-path composition with the per-segment fallback, and
finally publication.  Error messages reaching the 500 response model the
non-production `details` field. -/
def runJob (env : JobEnv) (jobId : String) (segs : List Segment) : JobTrace :=
  if (List.range segs.length).any (fun i => !env.dl i) then
    JobTrace.preCompose (.serverError "download failed")
  else
    match findIndex invalidDuration (updatedSegments env segs) with
    | some k => JobTrace.preCompose (.serverError (validationMessage k))
    | none =>
      if env.fastOk then
        publishStep env jobId false
      else
        match fallbackLoop "session" ((List.range segs.length).map env.fbEvent) 0 with
        | .error _ => ⟨.serverError "fallback segment render failed", true, true, true, false⟩
        | .ok _ =>
          if env.concatOk then publishStep env jobId true
          else ⟨.serverError "concat failed", true, true, true, false⟩

/-- The `POST /generate-video` handler (lines 104–287): body unwrapping,
destructuring with the `body || {}` guard, the `jobId` requirement, the
subtitle style resolution — where a truthy non-string `subtitlePreset`
throws a TypeError at line 130's `subtitlePreset.toLowerCase()`, outside the
`try` and before the segments check, so the request gets no structured
response and no workspace (for a truthy *string* preset the lookup
`presets[…toLowerCase()] || presets['default']` is the spec-modelled
collaborator's table, which cannot throw) — then the segments requirement,
segment normalization, and, only after both validations pass, allocation of
the session workspace followed by the job run. -/
def generateVideo (env : JobEnv) (reqBody : JVal) : JobTrace :=
  let body := jsOr (unwrapBody reqBody) (.obj [])
  let jobId := body.getField "jobId"
  if jobIdInvalid jobId then
    JobTrace.noWorkspace (.badRequest "jobId required in request body")
  else if presetCrashes (body.getField "subtitlePreset") then
    JobTrace.noWorkspace
      (.unhandled "TypeError: subtitlePreset.toLowerCase is not a function")
  else
    let _globalSubtitleStyle :=
      if (body.getField "subtitlePreset").truthy then
        jsOr (env.presets (body.getField "subtitlePreset")) (env.presets (.str "default"))
      else if (body.getField "subtitleStyle").truthy then body.getField "subtitleStyle"
      else JVal.null
    if segmentsInvalid (body.getField "segments") then
      JobTrace.noWorkspace (.badRequest "segments array required")
    else
      let segs := (jsArrayElems (body.getField "segments")).map normalizeSegment
      runJob env (match jobId with | .str s => s | _ => "") segs

/-!
## Concrete instances used by the witnesses
-/

/-- An ffmpeg process event that makes `createSegmentVideo` reject: an error
event, or any terminating event not strictly before the 60 s deadline. -/
def eventRejects : RenderEvent → Bool
  | .ended t => if t < FFMPEG_TIMEOUT_MS then false else true
  | .errored _ => true

/-- An environment in which every external effect succeeds. -/
def envAllOk : JobEnv :=
  { dl := fun _ => true
  , subGen := fun _ _ => { srtPath := .null, calculatedDuration := .null }
  , presets := fun _ => .null
  , fastOk := true
  , fbEvent := fun _ => .ended 0
  , concatOk := true
  , uploadOk := true
  , uploadUrl := "https://storage.example/video.mp4" }

/-- A normalized segment with a plain numeric duration of 3 seconds. -/
def segThree : Segment := { defaultSegment with duration := .num (.finite 3) }

/-- A normalized segment whose duration is the finite but non-positive
number 0. -/
def segZero : Segment := { defaultSegment with duration := .num (.finite 0) }

/-- A normalized segment whose duration is `null`. -/
def segNullDur : Segment := { defaultSegment with duration := .null }

/-- `envAllOk` with a failing fast path and a segment-0 render that hits the
60-second deadline. -/
def envC7 : JobEnv := { envAllOk with fastOk := false, fbEvent := fun _ => .ended 60000 }

/-- A request body with a valid job id but an empty segments array. -/
def bodyEmptySegs : JVal := .obj [("jobId", .str "job-123"), ("segments", .arr [])]

/-- A request body with a valid job id, an empty segments array, and a
truthy non-string `subtitlePreset` (the number 1). -/
def bodyPresetCrash : JVal :=
  .obj [("jobId", .str "j"), ("subtitlePreset", .num (.finite 1)), ("segments", .arr [])]

/-- Download-task results for a two-segment job in session directory `d`. -/
def resC1 : ℕ → Downloaded := fun i =>
  downloadTaskResult "d" (fun _ => ".png") ([segThree, segThree].getD i defaultSegment) i

/-- A limiter run over `resC1` with pool size 2 in which the two download
tasks complete in reverse order (task 1 settles before task 0). -/
def sC1 : PLimit.LimitState Downloaded :=
  PLimit.finishStep 2 resC1 (PLimit.finishStep 2 resC1
    (PLimit.submitStep 2 (PLimit.submitStep 2 PLimit.initState 0) 1) 1) 0

/-- Task results where task 0 rejects and every other task fulfils. -/
def resC4 : ℕ → Except String ℕ := fun i => if i = 0 then .error "boom" else .ok i

/-- A limiter run over `resC4` with pool size `MAX_CONCURRENCY 2 = 1`:
task 0 is admitted, task 1 queues behind it, then task 0 settles by
rejection. -/
def sC4 : PLimit.LimitState (Except String ℕ) :=
  PLimit.finishStep (PLimit.MAX_CONCURRENCY 2) resC4
    (PLimit.submitStep (PLimit.MAX_CONCURRENCY 2)
      (PLimit.submitStep (PLimit.MAX_CONCURRENCY 2) PLimit.initState 0) 1) 0

/-!
## Helper lemmas
-/

lemma findIndex_eq_none_iff (p : α → Bool) :
    ∀ (l : List α), findIndex p l = none ↔ ∀ a ∈ l, p a = false
  | [] => by simp [findIndex]
  | a :: as => by
    by_cases h : p a
    · simp [findIndex, h]
    · simp [findIndex, h, findIndex_eq_none_iff p as]

lemma findIndex_spec (p : α → Bool) (d : α) :
    ∀ (l : List α) (k : ℕ), findIndex p l = some k →
      k < l.length ∧ p (l.getD k d) = true ∧ ∀ j < k, p (l.getD j d) = false
  | [], k => by simp [findIndex]
  | a :: as, k => by
    by_cases h : p a
    · intro hk
      simp [findIndex, h] at hk
      subst hk
      simpa using h
    · intro hk
      simp [findIndex, h] at hk
      obtain ⟨k', hk', rfl⟩ := hk
      obtain ⟨h1, h2, h3⟩ := findIndex_spec p d as k' hk'
      refine ⟨by simpa using h1, by simpa using h2, ?_⟩
      intro j hj
      match j with
      | 0 => simpa using h
      | j' + 1 =>
        have := h3 j' (by omega)
        simpa using this

lemma createSegmentVideo_of_not_rejects (outPath : String) (ev : RenderEvent)
    (h : eventRejects ev = false) : createSegmentVideo outPath ev = .resolved outPath := by
  match ev with
  | .ended t =>
    by_cases ht : t < FFMPEG_TIMEOUT_MS
    · simp [createSegmentVideo, ht]
    · simp [eventRejects, ht] at h
  | .errored t => simp [eventRejects] at h

lemma fallbackLoop_all_ok (dir : String) :
    ∀ (evs : List RenderEvent) (i : ℕ),
      (∀ ev ∈ evs, eventRejects ev = false) →
      fallbackLoop dir evs i
        = .ok ((List.range evs.length).map (fun j => fallbackSegPath dir (i + j)))
  | [], i, _ => by simp [fallbackLoop]
  | ev :: rest, i, h => by
    have hev : eventRejects ev = false := h ev (by simp)
    have hrest : ∀ e ∈ rest, eventRejects e = false := fun e he => h e (by simp [he])
    have hlist : (List.range (rest.length + 1)).map (fun j => fallbackSegPath dir (i + j))
        = fallbackSegPath dir i
          :: (List.range rest.length).map (fun j => fallbackSegPath dir (i + 1 + j)) := by
      rw [List.range_succ_eq_map, List.map_cons, List.map_map]
      refine congrArg₂ List.cons (by simp) (List.map_congr_left ?_)
      intro j _
      simp only [Function.comp_apply]
      congr 1
      omega
    rw [fallbackLoop, createSegmentVideo_of_not_rejects _ _ hev,
      fallbackLoop_all_ok dir rest (i + 1) hrest]
    rw [List.length_cons, hlist]

lemma fallbackLoop_error (dir : String) :
    ∀ (evs : List RenderEvent) (i : ℕ),
      (∃ ev ∈ evs, eventRejects ev = true) →
      ∃ e, fallbackLoop dir evs i = .error e
  | [], i, h => by simp at h
  | ev :: rest, i, h => by
    by_cases hev : eventRejects ev = true
    · match ev with
      | .ended t =>
        have ht : ¬ t < FFMPEG_TIMEOUT_MS := by
          by_contra hc
          simp [eventRejects, hc] at hev
        exact ⟨.rejected true true, by simp [fallbackLoop, createSegmentVideo, ht]⟩
      | .errored t =>
        by_cases ht : t < FFMPEG_TIMEOUT_MS
        · exact ⟨.rejected false false, by simp [fallbackLoop, createSegmentVideo, ht]⟩
        · exact ⟨.rejected true true, by simp [fallbackLoop, createSegmentVideo, ht]⟩
    · have hres : createSegmentVideo (fallbackSegPath dir i) ev = .resolved (fallbackSegPath dir i) :=
        createSegmentVideo_of_not_rejects _ _ (by simpa using hev)
      have hrest : ∃ e ∈ rest, eventRejects e = true := by
        obtain ⟨e, he, hrej⟩ := h
        rcases List.mem_cons.mp he with rfl | he'
        · exact absurd hrej hev
        · exact ⟨e, he', hrej⟩
      obtain ⟨e, herr⟩ := fallbackLoop_error dir rest (i + 1) hrest
      exact ⟨e, by rw [fallbackLoop, hres, herr]⟩

lemma buildFilters_go (width height : ℕ) (dims : List (ℕ × ℕ)) :
    ∀ (n : ℕ) (a b : List String),
      (List.range n).foldl
        (fun acc i =>
          let d := dims.getD i (0, 0)
          (acc.1 ++ [inLabel i ++ videoFilterString width height d.1 d.2 ++ svLabel i],
           acc.2 ++ [svLabel i]))
        (a, b)
      = (a ++ (List.range n).map (fun i =>
            let d := dims.getD i (0, 0)
            inLabel i ++ videoFilterString width height d.1 d.2 ++ svLabel i),
         b ++ (List.range n).map svLabel)
  | 0, a, b => by simp
  | n + 1, a, b => by
    rw [List.range_succ, List.foldl_append, buildFilters_go width height dims n]
    simp [List.range_succ]

lemma buildFilters_eq (width height : ℕ) (dims : List (ℕ × ℕ)) :
    buildFilters width height dims
      = ((List.range dims.length).map (fun i =>
            let d := dims.getD i (0, 0)
            inLabel i ++ videoFilterString width height d.1 d.2 ++ svLabel i),
         (List.range dims.length).map svLabel) := by
  unfold buildFilters
  rw [buildFilters_go width height dims dims.length [] []]
  simp

/-!
## Claims
-/

/-- **C5**: retry policy of `downloadFileToPath`.  A retryable failure
(non-2xx status or transport error) on attempt k with k ≤ retries leads to a
retry after a `retryDelay * k` backoff; statuses 400/401/403/404 fail
immediately regardless of remaining budget; 500, 500 then 200 succeeds on
exactly the third attempt (with backoffs 500 ms and 1000 ms under the
defaults); exhausting the budget fails carrying the URL and the last-known
status. -/
theorem C5_fetch_retry_policy :
    (∀ (url : String) (out : ℕ → AttemptOutcome) (retries retryDelay attempt : ℕ)
        (delays : List ℕ) (st : Option ℕ),
      attemptFailure (out attempt) = some st →
      (match st with | some code => nonRetryable code | none => false) = false →
      attempt ≤ retries →
      fetchGo url out retries retryDelay attempt delays
        = fetchGo url out retries retryDelay (attempt + 1) (delays ++ [retryDelay * attempt]))
    ∧ (∀ (url : String) (out : ℕ → AttemptOutcome) (retries retryDelay attempt : ℕ)
        (delays : List ℕ) (code : ℕ) (sOk : Bool),
      out attempt = .response code sOk → nonRetryable code = true →
      fetchGo url out retries retryDelay attempt delays
        = .failure attempt url (some code) delays)
    ∧ downloadFileToPath "u" out500twice DEFAULT_RETRIES DEFAULT_RETRY_DELAY
        = .success 3 [500, 1000]
    ∧ (∀ (url : String) (out : ℕ → AttemptOutcome) (retries retryDelay attempt : ℕ)
        (delays : List ℕ) (st : Option ℕ),
      attemptFailure (out attempt) = some st →
      (match st with | some code => nonRetryable code | none => false) = false →
      retries < attempt →
      fetchGo url out retries retryDelay attempt delays
        = .failure attempt url st delays) := by
  refine ⟨?_, ?_, ?_, ?_⟩
  · intro url out retries retryDelay attempt delays st h1 h2 h3
    rw [fetchGo, h1]
    simp only [h2, Bool.false_eq_true, if_false]
    rw [dif_neg (by omega)]
  · intro url out retries retryDelay attempt delays code sOk h1 h2
    have hcode : code = 400 ∨ code = 401 ∨ code = 403 ∨ code = 404 := by
      simp [nonRetryable] at h2
      omega
    have hfail : attemptFailure (out attempt) = some (some code) := by
      rw [h1]
      simp only [attemptFailure]
      rw [if_neg (by omega)]
    rw [fetchGo, hfail]
    simp only [h2, if_true]
  · rw [downloadFileToPath, DEFAULT_RETRIES, DEFAULT_RETRY_DELAY]
    rw [fetchGo]
    norm_num [out500twice, attemptFailure, nonRetryable]
    rw [fetchGo]
    norm_num [out500twice, attemptFailure, nonRetryable]
    rw [fetchGo]
    norm_num [out500twice, attemptFailure]
  · intro url out retries retryDelay attempt delays st h1 h2 h3
    rw [fetchGo, h1]
    simp only [h2, Bool.false_eq_true, if_false]
    rw [dif_pos (by omega)]

/-- **C5** (witness): a transport error on attempt 1 with budget 2 retries
after a 500 ms backoff; a 404 fails on exactly the first attempt; a
transport error on attempt 3 with budget 2 exhausts the budget, carrying the
URL and last-known status. -/
theorem C5_fetch_retry_policy_witness :
    (attemptFailure ((fun _ => AttemptOutcome.transport none) 1) = some none
      ∧ fetchGo "u" (fun _ => AttemptOutcome.transport none) 2 500 1 []
          = fetchGo "u" (fun _ => AttemptOutcome.transport none) 2 500 2 [500])
    ∧ (nonRetryable 404 = true
      ∧ fetchGo "u" (fun _ => AttemptOutcome.response 404 true) 2 500 1 []
          = .failure 1 "u" (some 404) [])
    ∧ (2 < 3
      ∧ fetchGo "u" (fun _ => AttemptOutcome.transport none) 2 500 3 []
          = .failure 3 "u" none []) := by
  refine ⟨⟨rfl, ?_⟩, ⟨rfl, ?_⟩, ⟨by omega, ?_⟩⟩
  · have := C5_fetch_retry_policy.1 "u" (fun _ => AttemptOutcome.transport none)
      2 500 1 [] none rfl rfl (by omega)
    simpa using this
  · exact C5_fetch_retry_policy.2.1 "u" (fun _ => AttemptOutcome.response 404 true)
      2 500 1 [] 404 true rfl rfl
  · exact C5_fetch_retry_policy.2.2.2 "u" (fun _ => AttemptOutcome.transport none)
      2 500 3 [] none rfl rfl (by omega)

/-- **C6**: fast-path geometry.  For a probed image with positive native
dimensions, the scaled size is `floor(native * factor)` per axis with
`factor = min(W/nativeW, H/nativeH, 1)`, clamped to at least 1 px; the image
is never upscaled beyond 1×; and the filter pads the scaled image centered
to exactly `W×H` with a 1:1 sample aspect ratio. -/
theorem C6_fast_path_scaling (width height iw ih : ℕ) (hiw : 0 < iw) (hih : 0 < ih) :
    scaledDims width height iw ih
      = (max 1 (Int.toNat ⌊(iw : ℚ) * min (min ((width : ℚ) / (iw : ℚ)) ((height : ℚ) / (ih : ℚ))) 1⌋),
         max 1 (Int.toNat ⌊(ih : ℚ) * min (min ((width : ℚ) / (iw : ℚ)) ((height : ℚ) / (ih : ℚ))) 1⌋))
    ∧ (scaledDims width height iw ih).1 ≤ iw
    ∧ (scaledDims width height iw ih).2 ≤ ih
    ∧ 1 ≤ (scaledDims width height iw ih).1
    ∧ 1 ≤ (scaledDims width height iw ih).2
    ∧ videoFilterString width height iw ih
      = "scale=" ++ toString (scaledDims width height iw ih).1 ++ ":"
          ++ toString (scaledDims width height iw ih).2 ++ ",pad=" ++ toString width ++ ":"
          ++ toString height ++ ":(ow-iw)/2:(oh-ih)/2,setsar=1" := by
  have hfle : min (min ((width : ℚ) / (iw : ℚ)) ((height : ℚ) / (ih : ℚ))) 1 ≤ 1 :=
    min_le_right _ _
  have hW : Int.toNat ⌊(iw : ℚ) * min (min ((width : ℚ) / (iw : ℚ)) ((height : ℚ) / (ih : ℚ))) 1⌋ ≤ iw := by
    rw [Int.toNat_le]
    calc ⌊(iw : ℚ) * min (min ((width : ℚ) / (iw : ℚ)) ((height : ℚ) / (ih : ℚ))) 1⌋
        ≤ ⌊(iw : ℚ)⌋ := Int.floor_le_floor (mul_le_of_le_one_right (by positivity) hfle)
      _ = (iw : ℤ) := Int.floor_natCast iw
  have hH : Int.toNat ⌊(ih : ℚ) * min (min ((width : ℚ) / (iw : ℚ)) ((height : ℚ) / (ih : ℚ))) 1⌋ ≤ ih := by
    rw [Int.toNat_le]
    calc ⌊(ih : ℚ) * min (min ((width : ℚ) / (iw : ℚ)) ((height : ℚ) / (ih : ℚ))) 1⌋
        ≤ ⌊(ih : ℚ)⌋ := Int.floor_le_floor (mul_le_of_le_one_right (by positivity) hfle)
      _ = (ih : ℤ) := Int.floor_natCast ih
  refine ⟨rfl, ?_, ?_, ?_, ?_, ?_⟩
  · simpa [scaledDims] using max_le hiw hW
  · simpa [scaledDims] using max_le hih hH
  · simp [scaledDims]
  · simp [scaledDims]
  · simp [videoFilterString, hiw.ne', hih.ne']

/-- **C6** (witness): a 1920×1080 native image targeted at 1280×720 is
downscaled (factor 2/3), staying within its native size and at least 1 px. -/
theorem C6_fast_path_scaling_witness :
    0 < 1920 ∧ 0 < 1080
    ∧ (scaledDims 1280 720 1920 1080).1 ≤ 1920
    ∧ (scaledDims 1280 720 1920 1080).2 ≤ 1080
    ∧ 1 ≤ (scaledDims 1280 720 1920 1080).1 :=
  ⟨by omega, by omega,
   (C6_fast_path_scaling 1280 720 1920 1080 (by omega) (by omega)).2.1,
   (C6_fast_path_scaling 1280 720 1920 1080 (by omega) (by omega)).2.2.1,
   (C6_fast_path_scaling 1280 720 1920 1080 (by omega) (by omega)).2.2.2.1⟩

/-- **C7**: the fallback path's per-segment render is bounded by a 60-second
wall-clock timeout; on expiry the process is force-killed and the render
rejects; a render can only resolve on an `end` event strictly before the
deadline; and any per-segment rejection propagates out of the loop and fails
the whole job with nothing uploaded — no partial video is published. -/
theorem C7_fallback_timeout :
    FFMPEG_TIMEOUT_MS = 60000
    ∧ (∀ (outPath : String) (t : ℕ), FFMPEG_TIMEOUT_MS ≤ t →
        createSegmentVideo outPath (.ended t) = .rejected true true
        ∧ createSegmentVideo outPath (.errored t) = .rejected true true)
    ∧ (∀ (outPath : String) (ev : RenderEvent) (p : String),
        createSegmentVideo outPath ev = .resolved p →
        ∃ t, ev = .ended t ∧ t < FFMPEG_TIMEOUT_MS ∧ p = outPath)
    ∧ (∀ (env : JobEnv) (jobId : String) (segs : List Segment),
        env.fastOk = false →
        (∀ i, env.dl i = true) →
        findIndex invalidDuration (updatedSegments env segs) = none →
        (∃ i, i < segs.length ∧ eventRejects (env.fbEvent i) = true) →
        runJob env jobId segs
          = ⟨.serverError "fallback segment render failed", true, true, true, false⟩) := by
  refine ⟨rfl, ?_, ?_, ?_⟩
  · intro outPath t ht
    constructor <;> simp [createSegmentVideo, Nat.not_lt.mpr ht]
  · intro outPath ev p h
    match ev with
    | .ended t =>
      by_cases ht : t < FFMPEG_TIMEOUT_MS
      · simp [createSegmentVideo, ht] at h
        exact ⟨t, rfl, ht, h.symm⟩
      · simp [createSegmentVideo, ht] at h
    | .errored t =>
      by_cases ht : t < FFMPEG_TIMEOUT_MS <;> simp [createSegmentVideo, ht] at h
  · intro env jobId segs hfast hdl hvalid hrej
    have hany : (List.range segs.length).any (fun i => !env.dl i) = false := by
      simp [hdl]
    obtain ⟨i, hi, hev⟩ := hrej
    have hex : ∃ ev ∈ (List.range segs.length).map env.fbEvent, eventRejects ev = true :=
      ⟨env.fbEvent i, List.mem_map_of_mem env.fbEvent (List.mem_range.mpr hi), hev⟩
    obtain ⟨e, herr⟩ := fallbackLoop_error "session" _ 0 hex
    rw [runJob, hany]
    simp only [Bool.false_eq_true, if_false, hvalid]
    rw [hfast]
    simp only [Bool.false_eq_true, if_false, herr]

/-- **C7** (witness): with the fast path failing and segment 0's render
taking the full 60 s, the job fails with nothing uploaded. -/
theorem C7_fallback_timeout_witness :
    FFMPEG_TIMEOUT_MS ≤ 60000
    ∧ createSegmentVideo "out.mp4" (.ended 60000) = .rejected true true
    ∧ ((envC7.fastOk = false)
      ∧ (∀ i, envC7.dl i = true)
      ∧ findIndex invalidDuration (updatedSegments envC7 [segThree]) = none
      ∧ (∃ i, i < [segThree].length ∧ eventRejects (envC7.fbEvent i) = true)
      ∧ runJob envC7 "job-1" [segThree]
          = ⟨.serverError "fallback segment render failed", true, true, true, false⟩) :=
  ⟨by decide,
   (C7_fallback_timeout.2.1 "out.mp4" 60000 (by decide)).1,
   rfl, fun _ => rfl, rfl, ⟨0, by decide, rfl⟩,
   C7_fallback_timeout.2.2.2 envC7 "job-1" [segThree] rfl (fun _ => rfl) rfl
     ⟨0, by decide, rfl⟩⟩

/-- **C8** (counterexample): the `imageUrl` aliases are combined with `||`,
which skips *falsy* values, not merely absent ones: on a segment whose
`imageUrl` field is present but the empty string, the later `image` alias
supplies the result, refuting «a later alias is consulted only when every
earlier alias is absent». -/
theorem C8_counterexample :
    lookupField [("imageUrl", .str ""), ("image", .str "pic.png")] "imageUrl" = .str ""
    ∧ (normalizeSegment (.obj [("imageUrl", .str ""), ("image", .str "pic.png")])).imageUrl
        = .str "pic.png"
    ∧ JVal.str "pic.png" ≠ JVal.str "" := by
  refine ⟨rfl, rfl, ?_⟩
  intro h
  exact absurd (JVal.str.inj h) (by decide)

/-- **C8** (amended): canonical fields are filled from the fixed alias
priority lists, where for `imageUrl` (as for `image_prompt`, `subtitleText`,
`word_duration`) the first *truthy* alias value wins (`||` semantics — a
present but falsy value such as `""` is skipped), while for `duration` and
`id` the first *non-nullish* alias value wins (`??` semantics — a present
but `null` value is skipped); each chain falls through to its last alias's
value when no candidate qualifies. -/
theorem C8_alias_priority (fields : List (String × JVal)) :
    (normalizeSegment (.obj fields)).imageUrl
      = firstTruthy [JVal.getField (.obj fields) "imageUrl",
          JVal.getField (.obj fields) "image_Url",
          JVal.getField (.obj fields) "image_url",
          JVal.getField (.obj fields) "image"]
    ∧ (normalizeSegment (.obj fields)).duration
      = firstNonNullish [JVal.getField (.obj fields) "duration",
          JVal.getField (.obj fields) "length",
          JVal.getField (.obj fields) "time"]
    ∧ (normalizeSegment (.obj fields)).id
      = firstNonNullish [JVal.getField (.obj fields) "id",
          JVal.getField (.obj fields) "ID",
          JVal.getField (.obj fields) "index"] := by
  refine ⟨?_, ?_, ?_⟩
  · rw [show (normalizeSegment (.obj fields)).imageUrl
      = jsOr (jsOr (jsOr (JVal.getField (.obj fields) "imageUrl")
          (JVal.getField (.obj fields) "image_Url"))
          (JVal.getField (.obj fields) "image_url"))
          (JVal.getField (.obj fields) "image") from rfl]
    generalize JVal.getField (.obj fields) "imageUrl" = a
    generalize JVal.getField (.obj fields) "image_Url" = b
    generalize JVal.getField (.obj fields) "image_url" = c
    generalize JVal.getField (.obj fields) "image" = d
    by_cases ha : a.truthy <;> by_cases hb : b.truthy <;> by_cases hc : c.truthy <;>
      simp [jsOr, firstTruthy, ha, hb, hc]
  · rw [show (normalizeSegment (.obj fields)).duration
      = jsNullish (jsNullish (JVal.getField (.obj fields) "duration")
          (JVal.getField (.obj fields) "length"))
          (JVal.getField (.obj fields) "time") from rfl]
    generalize JVal.getField (.obj fields) "duration" = a
    generalize JVal.getField (.obj fields) "length" = b
    by_cases ha : a.looseEqNull <;> by_cases hb : b.looseEqNull <;>
      simp [jsNullish, firstNonNullish, ha, hb]
  · rw [show (normalizeSegment (.obj fields)).id
      = jsNullish (jsNullish (JVal.getField (.obj fields) "id")
          (JVal.getField (.obj fields) "ID"))
          (JVal.getField (.obj fields) "index") from rfl]
    generalize JVal.getField (.obj fields) "id" = a
    generalize JVal.getField (.obj fields) "ID" = b
    by_cases ha : a.looseEqNull <;> by_cases hb : b.looseEqNull <;>
      simp [jsNullish, firstNonNullish, ha, hb]

/-- **C2**: after all downloads succeed, if some segment's duration — taken
*after* the subtitle-driven recalculation — is null or not a finite number,
the job fails with the validation error naming the first offending index
(which is genuinely the first: every earlier index is valid), and neither
the fast path nor the fallback is invoked; conversely, when every
post-update duration is valid, composition is reached. -/
theorem C2_duration_validation (env : JobEnv) (jobId : String) (segs : List Segment)
    (hdl : ∀ i, env.dl i = true) :
    (∀ k, findIndex invalidDuration (updatedSegments env segs) = some k →
      runJob env jobId segs = JobTrace.preCompose (.serverError (validationMessage k))
      ∧ invalidDuration ((updatedSegments env segs).getD k defaultSegment) = true
      ∧ ∀ j < k, invalidDuration ((updatedSegments env segs).getD j defaultSegment) = false)
    ∧ (findIndex invalidDuration (updatedSegments env segs) = none →
      (runJob env jobId segs).fastInvoked = true) := by
  have hany : (List.range segs.length).any (fun i => !env.dl i) = false := by simp [hdl]
  constructor
  · intro k hk
    refine ⟨?_, (findIndex_spec _ defaultSegment _ k hk).2.1,
      (findIndex_spec _ defaultSegment _ k hk).2.2⟩
    rw [runJob, hany]
    simp only [Bool.false_eq_true, if_false, hk]
  · intro hnone
    rw [runJob, hany]
    simp only [Bool.false_eq_true, if_false, hnone]
    split
    · unfold publishStep
      split <;> rfl
    · split
      · rfl
      · split
        · unfold publishStep
          split <;> rfl
        · rfl

/-- **C2** (witness): a two-segment job whose second segment has a `null`
duration fails validation at index 1 before any composition. -/
theorem C2_duration_validation_witness :
    (∀ i, envAllOk.dl i = true)
    ∧ findIndex invalidDuration (updatedSegments envAllOk [segThree, segNullDur]) = some 1
    ∧ runJob envAllOk "job-1" [segThree, segNullDur]
        = JobTrace.preCompose (.serverError (validationMessage 1)) :=
  ⟨fun _ => rfl, rfl,
   ((C2_duration_validation envAllOk "job-1" [segThree, segNullDur] (fun _ => rfl)).1 1 rfl).1⟩

/-- **C3** (counterexample): the validator only tests
`Number.isFinite(Number(duration))` — it does not require positivity.  A
segment with duration 0 (finite but not positive) passes validation, reaches
the fast-path composition, and the job completes, refuting «any segment
[whose duration is] not positive … fails job validation and aborts before
any render work». -/
theorem C3_counterexample :
    invalidDuration segZero = false
    ∧ segZero.duration.toNumber = .finite 0
    ∧ (runJob envAllOk "job-1" [segZero]).fastInvoked = true
    ∧ (runJob envAllOk "job-1" [segZero]).response
        = .ok "job-1" "https://storage.example/video.mp4" :=
  ⟨rfl, rfl, rfl, rfl⟩

/-- **C3** (amended): for every job that reaches composition, every
segment's duration is at that point non-null and a *finite* number (not
necessarily positive — zero or negative finite durations are not rejected);
any segment with a null or non-finite duration fails job validation and
aborts before any render work. -/
theorem C3_composition_duration_invariant (env : JobEnv) (jobId : String) (segs : List Segment)
    (h : (runJob env jobId segs).fastInvoked = true) :
    ∀ seg ∈ updatedSegments env segs,
      seg.duration.looseEqNull = false ∧ seg.duration.toNumber.isFinite = true := by
  rw [runJob] at h
  split at h
  · simp [JobTrace.preCompose] at h
  · cases hfi : findIndex invalidDuration (updatedSegments env segs) with
    | none =>
      intro seg hseg
      have hval := (findIndex_eq_none_iff invalidDuration _).mp hfi seg hseg
      simp only [invalidDuration, Bool.or_eq_false_iff, Bool.not_eq_false'] at hval
      exact hval
    | some k =>
      rw [hfi] at h
      simp [JobTrace.preCompose] at h

/-- **C3** (amended, witness): a job with one plain 3-second segment reaches
composition, and its duration is indeed non-null and finite there. -/
theorem C3_composition_duration_invariant_witness :
    (runJob envAllOk "job-1" [segThree]).fastInvoked = true
    ∧ ∀ seg ∈ updatedSegments envAllOk [segThree],
        seg.duration.looseEqNull = false ∧ seg.duration.toNumber.isFinite = true :=
  ⟨rfl, C3_composition_duration_invariant envAllOk "job-1" [segThree] rfl⟩

/-- **C9** (counterexample): a request with a valid `jobId`, an *empty*
`segments` array and a truthy non-string `subtitlePreset` (the number 1) is
NOT answered with a 400 validation error: `subtitlePreset.toLowerCase()`
(server.js line 130) throws a TypeError between the jobId check and the
segments check, outside the `try`, so no 400 of any kind is produced —
refuting «for every request whose segments field is …, the response is a
400 validation error».  (No workspace is created on this path either.) -/
theorem C9_counterexample :
    jobIdInvalid ((jsOr (unwrapBody bodyPresetCrash) (.obj [])).getField "jobId") = false
    ∧ segmentsInvalid ((jsOr (unwrapBody bodyPresetCrash) (.obj [])).getField "segments") = true
    ∧ generateVideo envAllOk bodyPresetCrash
        = JobTrace.noWorkspace
            (.unhandled "TypeError: subtitlePreset.toLowerCase is not a function")
    ∧ ∀ msg, generateVideo envAllOk bodyPresetCrash ≠ JobTrace.noWorkspace (.badRequest msg) := by
  have h3 : generateVideo envAllOk bodyPresetCrash
      = JobTrace.noWorkspace
          (.unhandled "TypeError: subtitlePreset.toLowerCase is not a function") := rfl
  refine ⟨rfl, rfl, h3, ?_⟩
  intro msg h
  rw [h3] at h
  simp [JobTrace.noWorkspace] at h

/-- **C9** (amended): a request whose (unwrapped) body has a missing,
non-string or blank `jobId` is answered with the 400 `jobId required` error;
a request passing that check whose `segments` field is absent, not an array
or an empty array is answered with the 400 `segments array required` error
*provided* its `subtitlePreset` is not truthy-and-non-string; a truthy
non-string preset instead makes `subtitlePreset.toLowerCase()` throw before
the segments check, so no 400 is sent.  In all three cases no session
workspace is created — the workspace is only allocated after both checks
(and the preset block between them) pass. -/
theorem C9_request_validation (env : JobEnv) (reqBody : JVal) :
    (jobIdInvalid ((jsOr (unwrapBody reqBody) (.obj [])).getField "jobId") = true →
      generateVideo env reqBody
        = JobTrace.noWorkspace (.badRequest "jobId required in request body"))
    ∧ (jobIdInvalid ((jsOr (unwrapBody reqBody) (.obj [])).getField "jobId") = false →
      presetCrashes ((jsOr (unwrapBody reqBody) (.obj [])).getField "subtitlePreset") = false →
      segmentsInvalid ((jsOr (unwrapBody reqBody) (.obj [])).getField "segments") = true →
      generateVideo env reqBody
        = JobTrace.noWorkspace (.badRequest "segments array required"))
    ∧ (jobIdInvalid ((jsOr (unwrapBody reqBody) (.obj [])).getField "jobId") = false →
      presetCrashes ((jsOr (unwrapBody reqBody) (.obj [])).getField "subtitlePreset") = true →
      generateVideo env reqBody
        = JobTrace.noWorkspace
            (.unhandled "TypeError: subtitlePreset.toLowerCase is not a function")) := by
  refine ⟨?_, ?_, ?_⟩
  · intro h
    rw [generateVideo]
    simp only [h, if_true]
  · intro h1 h2 h3
    rw [generateVideo]
    simp only [h1, h2, h3, Bool.false_eq_true, if_false, if_true]
  · intro h1 h2
    rw [generateVideo]
    simp only [h1, h2, Bool.false_eq_true, if_false, if_true]

/-- **C9** (witness): a body without `jobId` gets the jobId validation
error; a body with a valid `jobId`, no preset and `segments: []` gets the
segments validation error; a body with a valid `jobId` and a numeric
`subtitlePreset` gets the unhandled TypeError; none creates a workspace. -/
theorem C9_request_validation_witness :
    (jobIdInvalid ((jsOr (unwrapBody (.obj [])) (.obj [])).getField "jobId") = true
      ∧ generateVideo envAllOk (.obj [])
          = JobTrace.noWorkspace (.badRequest "jobId required in request body"))
    ∧ (jobIdInvalid ((jsOr (unwrapBody bodyEmptySegs) (.obj [])).getField "jobId") = false
      ∧ presetCrashes ((jsOr (unwrapBody bodyEmptySegs) (.obj [])).getField "subtitlePreset") = false
      ∧ segmentsInvalid ((jsOr (unwrapBody bodyEmptySegs) (.obj [])).getField "segments") = true
      ∧ generateVideo envAllOk bodyEmptySegs
          = JobTrace.noWorkspace (.badRequest "segments array required"))
    ∧ (presetCrashes ((jsOr (unwrapBody bodyPresetCrash) (.obj [])).getField "subtitlePreset") = true
      ∧ generateVideo envAllOk bodyPresetCrash
          = JobTrace.noWorkspace
              (.unhandled "TypeError: subtitlePreset.toLowerCase is not a function")) :=
  ⟨⟨rfl, (C9_request_validation envAllOk (.obj [])).1 rfl⟩,
   ⟨rfl, rfl, rfl, (C9_request_validation envAllOk bodyEmptySegs).2.1 rfl rfl rfl⟩,
   ⟨rfl, (C9_request_validation envAllOk bodyPresetCrash).2.2 rfl rfl⟩⟩

/-- **C10**: a request body that is an array holding exactly one object is
silently unwrapped — `[{…}]` and `{…}` behave identically — while an array
body of any other length reaches destructuring as-is, yields no `jobId`
(JSON arrays have no named fields) and is rejected with the jobId
validation error, creating no workspace. -/
theorem C10_array_unwrap (env : JobEnv) :
    (∀ fields : List (String × JVal),
      generateVideo env (.arr [.obj fields]) = generateVideo env (.obj fields))
    ∧ (∀ xs : List JVal, xs.length ≠ 1 →
      generateVideo env (.arr xs)
        = JobTrace.noWorkspace (.badRequest "jobId required in request body")) := by
  constructor
  · intro fields
    rfl
  · intro xs hxs
    have hun : unwrapBody (.arr xs) = .arr xs := by
      rcases xs with _ | ⟨x, _ | ⟨y, rest⟩⟩
      · rfl
      · simp at hxs
      · rfl
    rw [generateVideo, hun]
    rfl

/-- **C10** (witness): the empty-array body is rejected for want of a
`jobId`, and a singleton array wrapping an object behaves exactly like the
object itself. -/
theorem C10_array_unwrap_witness :
    ([] : List JVal).length ≠ 1
    ∧ generateVideo envAllOk (.arr [])
        = JobTrace.noWorkspace (.badRequest "jobId required in request body")
    ∧ generateVideo envAllOk (.arr [.obj [("jobId", .str "j")]])
        = generateVideo envAllOk (.obj [("jobId", .str "j")]) :=
  ⟨by decide, (C10_array_unwrap envAllOk).2 [] (by decide),
   (C10_array_unwrap envAllOk).1 [("jobId", .str "j")]⟩

/-- **C1**: within one job, segment order is preserved end-to-end.  In any
reachable state of the concurrency-limited download fan-out — i.e. for any
admission/completion interleaving — every settled task `i` carries exactly
segment `i`'s download result, whose image path is indexed by the original
segment position (`img_<i>`); the fast path's concat filter consumes the
per-segment streams `[sv0][sv1]…` strictly in index order, with stream
`[sv_i]` produced from ffmpeg input `i`; and the fallback path renders and
concat-lists `seg_0.mp4, seg_1.mp4, …` strictly in index order. -/
theorem C1_segment_order (N : ℕ) (sessionDir : String) (extOf : JVal → String)
    (segs : List Segment) (s : PLimit.LimitState Downloaded)
    (hreach : PLimit.Reachable N
      (fun i => downloadTaskResult sessionDir extOf (segs.getD i defaultSegment) i) s) :
    (∀ p ∈ s.settled,
      p.2 = downloadTaskResult sessionDir extOf (segs.getD p.1 defaultSegment) p.1
      ∧ p.2.imagePath
          = sessionDir ++ "/img_" ++ toString p.1
              ++ extOf (segs.getD p.1 defaultSegment).imageUrl)
    ∧ (∀ width height (dims : List (ℕ × ℕ)),
        (buildFilters width height dims).2 = (List.range dims.length).map svLabel
        ∧ (buildFilters width height dims).1
            = (List.range dims.length).map (fun i =>
                let d := dims.getD i (0, 0)
                inLabel i ++ videoFilterString width height d.1 d.2 ++ svLabel i)
        ∧ filterComplex width height dims
            = String.intercalate ";" ((buildFilters width height dims).1
                ++ [String.join ((List.range dims.length).map svLabel)
                    ++ "concat=n=" ++ toString dims.length ++ ":v=1:a=0[v]"]))
    ∧ (∀ (dir : String) (n : ℕ) (evFn : ℕ → RenderEvent),
        (∀ j, eventRejects (evFn j) = false) →
        fallbackLoop dir ((List.range n).map evFn) 0
          = .ok ((List.range n).map (fallbackSegPath dir))
        ∧ concatFileList ((List.range n).map (fallbackSegPath dir))
          = String.intercalate "\n" ((List.range n).map (fun i =>
              "file \x27" ++ escapeForConcat (fallbackSegPath dir i) ++ "\x27"))) := by
  refine ⟨?_, ?_, ?_⟩
  · intro p hp
    have hcorr := (PLimit.reachable_inv _ _ _ hreach).2.2.1 p hp
    exact ⟨hcorr, by rw [hcorr]; rfl⟩
  · intro width height dims
    refine ⟨?_, ?_, ?_⟩
    · rw [buildFilters_eq]
    · rw [buildFilters_eq]
    · rw [filterComplex, buildFilters_eq]
  · intro dir n evFn h
    constructor
    · have hall : ∀ ev ∈ (List.range n).map evFn, eventRejects ev = false := by
        intro ev hev
        obtain ⟨j, _, rfl⟩ := List.mem_map.mp hev
        exact h j
      rw [fallbackLoop_all_ok dir _ 0 hall]
      simp
    · simp only [concatFileList, List.map_map]
      rfl

/-- **C1** (witness): a two-task run with pool size 2 in which the fetches
complete out of order (task 1 settles first) still correlates every settled
task with its own index's download result. -/
theorem C1_segment_order_witness :
    PLimit.Reachable 2 resC1 sC1
    ∧ sC1.settled.map Prod.fst = [1, 0]
    ∧ ∀ p ∈ sC1.settled,
        p.2 = downloadTaskResult "d" (fun _ => ".png")
            ([segThree, segThree].getD p.1 defaultSegment) p.1
        ∧ p.2.imagePath = "d" ++ "/img_" ++ toString p.1
            ++ (fun _ => ".png") ([segThree, segThree].getD p.1 defaultSegment).imageUrl := by
  have hreach : PLimit.Reachable 2 resC1 sC1 :=
    Relation.ReflTransGen.tail (Relation.ReflTransGen.tail (Relation.ReflTransGen.tail
      (Relation.ReflTransGen.single
        (PLimit.Step.submit PLimit.initState 0 (by decide)))
      (PLimit.Step.submit _ 1 (by decide)))
      (PLimit.Step.finish _ 1 (by decide)))
      (PLimit.Step.finish _ 0 (by decide))
  exact ⟨hreach, rfl,
    (C1_segment_order 2 "d" (fun _ => ".png") [segThree, segThree] sC1 hreach).1⟩

/-- **C4**: the limiter with pool size `MAX_CONCURRENCY cpus`
(= max(1, cpus − 1)) keeps at most that many tasks simultaneously active in
every reachable state; admits queued tasks in arrival (FIFO) order — the
admission history followed by the waiting queue is exactly the submission
order; correlates every settled result with its own originating task; on any
settlement admits exactly the head of the queue; and treats fulfilment and
rejection identically for control purposes — the successor's queue,
admission history and active set do not depend on the settling values, so
one task's rejection does not prevent the remaining queued tasks from
running. -/
theorem C4_concurrency_limiter {α : Type} (cpus : ℕ) (res : ℕ → α)
    (s : PLimit.LimitState α)
    (hreach : PLimit.Reachable (PLimit.MAX_CONCURRENCY cpus) res s) :
    1 ≤ PLimit.MAX_CONCURRENCY cpus
    ∧ s.active.length ≤ PLimit.MAX_CONCURRENCY cpus
    ∧ s.admitted ++ s.queue = s.submitted
    ∧ (∀ p ∈ s.settled, p.2 = res p.1)
    ∧ (∀ id ∈ s.active, ∀ hd tl, s.queue = hd :: tl →
        (PLimit.finishStep (PLimit.MAX_CONCURRENCY cpus) res s id).admitted
          = s.admitted ++ [hd])
    ∧ (∀ (res' : ℕ → α) (id : ℕ),
        (PLimit.finishStep (PLimit.MAX_CONCURRENCY cpus) res s id).queue
          = (PLimit.finishStep (PLimit.MAX_CONCURRENCY cpus) res' s id).queue
        ∧ (PLimit.finishStep (PLimit.MAX_CONCURRENCY cpus) res s id).admitted
          = (PLimit.finishStep (PLimit.MAX_CONCURRENCY cpus) res' s id).admitted
        ∧ (PLimit.finishStep (PLimit.MAX_CONCURRENCY cpus) res s id).active
          = (PLimit.finishStep (PLimit.MAX_CONCURRENCY cpus) res' s id).active) := by
  obtain ⟨h1, h2, h3, _⟩ := PLimit.reachable_inv _ res s hreach
  refine ⟨le_max_left 1 _, h1, h2, h3, ?_, ?_⟩
  · intro id hid hd tl hq
    exact (PLimit.finishStep_admits_head _ res s id hd tl hreach hid hq).1
  · intro res' id
    have h := PLimit.finishStep_control_indep (PLimit.MAX_CONCURRENCY cpus) res res' s id
    exact ⟨h.2.1, h.2.2.1, h.2.2.2⟩

/-- **C4** (witness): with 2 CPUs the pool size is 1; task 1 queues behind
task 0, and task 0's *rejection* still admits task 1 — the admission history
ends as `[0, 1]` with the failed result correctly correlated to task 0. -/
theorem C4_concurrency_limiter_witness :
    PLimit.Reachable (PLimit.MAX_CONCURRENCY 2) resC4 sC4
    ∧ resC4 0 = .error "boom"
    ∧ sC4.admitted = [0, 1]
    ∧ sC4.active.length ≤ PLimit.MAX_CONCURRENCY 2
    ∧ sC4.admitted ++ sC4.queue = sC4.submitted
    ∧ (∀ p ∈ sC4.settled, p.2 = resC4 p.1) := by
  have hreach : PLimit.Reachable (PLimit.MAX_CONCURRENCY 2) resC4 sC4 :=
    Relation.ReflTransGen.tail (Relation.ReflTransGen.tail
      (Relation.ReflTransGen.single
        (PLimit.Step.submit PLimit.initState 0 (by decide)))
      (PLimit.Step.submit _ 1 (by decide)))
      (PLimit.Step.finish _ 0 (by decide))
  have hmain := C4_concurrency_limiter 2 resC4 sC4 hreach
  exact ⟨hreach, rfl, rfl, hmain.2.1, hmain.2.2.1, hmain.2.2.2.1⟩
